import Mathlib

set_option maxRecDepth 8000

/-!
Verification of the secure action-dispatch pattern that the migration scripts of
this repository retrofit onto the Move action modules, together with the
scripts' own per-file rewrite behaviour.

The authoritative sources are:
* the replacement Move code embedded as strings in
  contracts/fix_financial_actions.py, contracts/complete_migration.py,
  contracts/fix_action_security.py, contracts/fix_all_actions.py,
  contracts/fix_all_issues.py and contracts/fix_decoder_issues.py
  (the post-migration bodies of the dissolution actions, the generic secure
  dispatch pattern, the stream action structs and the decoder registrations);
* the Python text-rewriting functions themselves (process_file and its
  helpers in contracts/fix_action_security.py).

Library code of the monorepo that the embedded Move code calls but that is not
under src/ (account_protocol::bcs_validation, futarchy_core::action_validation,
account_protocol::executable / intents accessors, sui::bcs peels, the
futarchy_config state constants and the oracle hot-potato actions) is modelled
from the specification; each such definition carries a doc comment starting
with "Modelled from the spec:".
-/

/-- Move type names used as action type tags and as decoder-registry keys.
One constructor per concrete Move type appearing in the embedded code:
the `action_types` markers asserted by the dissolution dispatch functions,
the stream action structs added by fix_all_issues.py, the placeholder
`...ActionDecoder` types introduced by fix_decoder_issues.py, and an
`otherT` constructor standing for every further type name. -/
inductive MvType where
  | initiateDissolutionT
  | distributeAssetT
  | finalizeDissolutionT
  | cancelDissolutionT
  | createStreamCoinPlaceholderT
  | cancelStreamT
  | withdrawStreamT
  | updateStreamT
  | pauseStreamT
  | resumeStreamT
  | createStreamDecT
  | cancelStreamDecT
  | withdrawStreamDecT
  | updateStreamDecT
  | pauseStreamDecT
  | resumeStreamDecT
  | oracleRequestT
  | otherT (n : Nat)
deriving DecidableEq

/-- Error outcomes of a dispatch step.  `wrongActionType` is the abort of
action_validation::assert_action_type and of the EWrongAction assert of the
secure pattern; `unsupportedActionVersion` is EUnsupportedActionVersion;
`malformedPayload` is any sui::bcs peel abort, a bcs_validation abort on
unconsumed bytes, or a bcs::from_bytes abort; the remaining constructors are
the business error constants of dissolution_actions.move
(EInvalidRatio, EInvalidThreshold, EDissolutionNotActive, ENotDissolving,
EInvalidRecipient, EEmptyAssetList); `executableExhausted` is the abort of
borrowing an action spec past the end of the intent. -/
inductive DErr where
  | wrongActionType
  | unsupportedActionVersion
  | malformedPayload
  | invalidRatioErr
  | invalidThresholdErr
  | dissolutionNotActive
  | notDissolving
  | invalidRecipient
  | emptyAssetList
  | executableExhausted
deriving DecidableEq

/-- The wire representation of one action: type tag, schema version and opaque
payload bytes (`intents::ActionSpec`; bytes as `Nat`s below 256). -/
structure ActionSpec where
  tag : MvType
  version : Nat
  payload : List Nat
deriving DecidableEq

/-- An immutable ordered batch of action specs (`intents::Intent`). -/
structure Intent where
  action_specs : List ActionSpec
deriving DecidableEq

/-- A cursor over one Intent (`executable::Executable`): the intent and the
current action index. -/
structure Executable where
  intent : Intent
  action_idx : Nat
deriving DecidableEq

/-- Modelled from the spec: `executable::increment_action_idx` advances the
cursor by exactly one (account_protocol::executable is not under src/). -/
def increment_action_idx (e : Executable) : Executable :=
  { e with action_idx := e.action_idx + 1 }

/-- The shared mutable state the dissolution actions touch: the two
futarchy_config fields that the embedded Move code reads and writes. -/
structure FutarchyConfigM where
  operational_state : Nat
  proposals_enabled : Bool
deriving DecidableEq

/-- Modelled from the spec: futarchy_config::state_active(); the concrete
numeric values live in futarchy_core (not under src/), only distinctness is
used. -/
def stateActive : Nat := 0

/-- Modelled from the spec: futarchy_config::state_dissolving(). -/
def stateDissolving : Nat := 1

/-- Modelled from the spec: futarchy_config::state_dissolved(). -/
def stateDissolved : Nat := 2

/-! ## Binary payload codec (sui::bcs peels, BCS serialization)

Modelled from the spec's codec contract (section 4.1) and the standard BCS
format the embedded Move code relies on: little-endian fixed-width integers,
ULEB128 length prefixes for vectors, one byte booleans, 32-byte addresses.
The sui::bcs module itself is an external dependency, not under src/. -/

/-- ULEB128 encoding of a length; structural recursion on a fuel bound that
dominates the value (n / 128 < n, so n itself is enough fuel). -/
def encodeUlebFuel : Nat → Nat → List Nat
  | 0, n => [n]
  | fuel + 1, n => if n < 128 then [n] else (n % 128 + 128) :: encodeUlebFuel fuel (n / 128)

/-- ULEB128 encoding of a length. -/
def encodeUleb (n : Nat) : List Nat :=
  encodeUlebFuel n n

/-- ULEB128 decoding; `shift` and `acc` accumulate the value. -/
def decodeUlebCore : List Nat → Nat → Nat → Except DErr (Nat × List Nat)
  | [], _, _ => .error .malformedPayload
  | b :: rest, shift, acc =>
    if b < 128 then .ok (acc + b * 2 ^ shift, rest)
    else decodeUlebCore rest (shift + 7) (acc + (b - 128) * 2 ^ shift)

/-- bcs::peel_u8: read one byte. -/
def peelU8 : List Nat → Except DErr (Nat × List Nat)
  | [] => .error .malformedPayload
  | b :: t => .ok (b, t)

/-- bcs::peel_bool: one byte, 0 or 1. -/
def peelBool : List Nat → Except DErr (Bool × List Nat)
  | [] => .error .malformedPayload
  | 0 :: t => .ok (false, t)
  | 1 :: t => .ok (true, t)
  | _ :: _ => .error .malformedPayload

/-- Little-endian fixed-width read of `w` bytes. -/
def peelLE : Nat → List Nat → Except DErr (Nat × List Nat)
  | 0, bs => .ok (0, bs)
  | w + 1, bs =>
    match bs with
    | [] => .error .malformedPayload
    | b :: t =>
      match peelLE w t with
      | .error er => .error er
      | .ok (v, rest) => .ok (b + 256 * v, rest)

/-- bcs::peel_u64: eight little-endian bytes. -/
def peelU64 (bs : List Nat) : Except DErr (Nat × List Nat) :=
  peelLE 8 bs

/-- bcs::peel_address: a fixed 32-byte identifier, kept as its byte list. -/
def peelAddress (bs : List Nat) : Except DErr (List Nat × List Nat) :=
  if 32 ≤ bs.length then .ok (bs.take 32, bs.drop 32) else .error .malformedPayload

/-- bcs::peel_vec_u8: ULEB128 length then that many bytes. -/
def peelVecU8 (bs : List Nat) : Except DErr (List Nat × List Nat) :=
  match decodeUlebCore bs 0 0 with
  | .error er => .error er
  | .ok (n, rest) =>
    if n ≤ rest.length then .ok (rest.take n, rest.drop n) else .error .malformedPayload

/-- Read `n` consecutive vec_u8 values. -/
def peelVecList : Nat → List Nat → Except DErr (List (List Nat) × List Nat)
  | 0, bs => .ok ([], bs)
  | n + 1, bs =>
    match peelVecU8 bs with
    | .error er => .error er
    | .ok (v, rest) =>
      match peelVecList n rest with
      | .error er => .error er
      | .ok (vs, rest') => .ok (v :: vs, rest')

/-- bcs::peel_vec_vec_u8: ULEB128 count then that many vec_u8 values. -/
def peelVecVecU8 (bs : List Nat) : Except DErr (List (List Nat) × List Nat) :=
  match decodeUlebCore bs 0 0 with
  | .error er => .error er
  | .ok (n, rest) => peelVecList n rest

/-- Modelled from the spec: account_protocol::bcs_validation::
validate_all_bytes_consumed aborts unless the reader is empty — "trailing
bytes are always an error, never ignored" (spec section 4.1). -/
def validateAllBytesConsumed (rest : List Nat) : Except DErr Unit :=
  if rest = [] then .ok () else .error .malformedPayload

/-- Little-endian fixed-width write of `w` bytes. -/
def encodeLE : Nat → Nat → List Nat
  | 0, _ => []
  | w + 1, v => v % 256 :: encodeLE w (v / 256)

/-- BCS serialization of a u64. -/
def encodeU64 (v : Nat) : List Nat :=
  encodeLE 8 v

/-- BCS serialization of a bool. -/
def encodeBool (b : Bool) : List Nat :=
  [if b then 1 else 0]

/-- BCS serialization of a vector<u8>. -/
def encodeVecU8 (v : List Nat) : List Nat :=
  encodeUleb v.length ++ v

/-- Concatenation of a list of byte lists. -/
def concatAll : List (List Nat) → List Nat
  | [] => []
  | x :: xs => x ++ concatAll xs

/-- BCS serialization of a vector<vector<u8>>. -/
def encodeVecVecU8 (vs : List (List Nat)) : List Nat :=
  encodeUleb vs.length ++ concatAll (vs.map encodeVecU8)

/-! ## Action payload structs (from the embedded Move code) -/

/-- InitiateDissolutionAction, fields as in fix_financial_actions.py
(reason: String kept as its utf8 bytes). -/
structure InitiateDissolutionAction where
  reason : List Nat
  distribution_method : Nat
  burn_unsold_tokens : Bool
  final_operations_deadline : Nat
deriving DecidableEq

/-- BatchDistributeAction: the payload decoded by do_batch_distribute. -/
structure BatchDistributeAction where
  asset_types : List (List Nat)
deriving DecidableEq

/-- FinalizeDissolutionAction: the payload decoded by do_finalize_dissolution
(final_recipient kept as its 32 address bytes). -/
structure FinalizeDissolutionAction where
  final_recipient : List Nat
  destroy_account : Bool
deriving DecidableEq

/-- CancelDissolutionAction: the payload decoded by do_cancel_dissolution
(reason: String kept as its utf8 bytes; the string::utf8 well-formedness
abort is not modelled). -/
structure CancelDissolutionAction where
  reason : List Nat
deriving DecidableEq

/-- CancelStreamAction, as declared by fix_all_issues.py
(fix_p1_create_missing_stream_actions): stream_id: ID (32 bytes),
reason: String (utf8 bytes). -/
structure CancelStreamAction where
  stream_id : List Nat
  reason : List Nat
deriving DecidableEq

/-- The all-zero address @0x0. -/
def zeroAddress : List Nat :=
  List.replicate 32 0

/-- bcs::to_bytes of an InitiateDissolutionAction (field-by-field BCS). -/
def encodeInitiate (a : InitiateDissolutionAction) : List Nat :=
  encodeVecU8 a.reason ++ [a.distribution_method] ++ encodeBool a.burn_unsold_tokens
    ++ encodeU64 a.final_operations_deadline

/-- bcs::to_bytes of a BatchDistributeAction. -/
def encodeBatch (a : BatchDistributeAction) : List Nat :=
  encodeVecVecU8 a.asset_types

/-- bcs::to_bytes of a FinalizeDissolutionAction. -/
def encodeFinalize (a : FinalizeDissolutionAction) : List Nat :=
  a.final_recipient ++ encodeBool a.destroy_account

/-- bcs::to_bytes of a CancelDissolutionAction. -/
def encodeCancel (a : CancelDissolutionAction) : List Nat :=
  encodeVecU8 a.reason

/-- bcs::to_bytes of a CancelStreamAction. -/
def encodeCancelStream (a : CancelStreamAction) : List Nat :=
  a.stream_id ++ encodeVecU8 a.reason

/-- The decode step of do_initiate_dissolution (fix_financial_actions.py):
peel_vec_u8, peel_u8, peel_bool, peel_u64, then
bcs_validation::validate_all_bytes_consumed. -/
def decodeInitiatePayload (bs : List Nat) : Except DErr InitiateDissolutionAction :=
  match peelVecU8 bs with
  | .error er => .error er
  | .ok (reason, r1) =>
    match peelU8 r1 with
    | .error er => .error er
    | .ok (dm, r2) =>
      match peelBool r2 with
      | .error er => .error er
      | .ok (burn, r3) =>
        match peelU64 r3 with
        | .error er => .error er
        | .ok (dl, r4) =>
          match validateAllBytesConsumed r4 with
          | .error er => .error er
          | .ok _ => .ok ⟨reason, dm, burn, dl⟩

/-- The decode step of do_batch_distribute (fix_financial_actions.py):
peel_vec_vec_u8 then validate_all_bytes_consumed. -/
def decodeBatchPayload (bs : List Nat) : Except DErr BatchDistributeAction :=
  match peelVecVecU8 bs with
  | .error er => .error er
  | .ok (ats, r1) =>
    match validateAllBytesConsumed r1 with
    | .error er => .error er
    | .ok _ => .ok ⟨ats⟩

/-- The decode step of do_finalize_dissolution (complete_migration.py):
peel_address, peel_bool, then validate_all_bytes_consumed. -/
def decodeFinalizePayload (bs : List Nat) : Except DErr FinalizeDissolutionAction :=
  match peelAddress bs with
  | .error er => .error er
  | .ok (recip, r1) =>
    match peelBool r1 with
    | .error er => .error er
    | .ok (destroy, r2) =>
      match validateAllBytesConsumed r2 with
      | .error er => .error er
      | .ok _ => .ok ⟨recip, destroy⟩

/-- The decode step of do_cancel_dissolution (complete_migration.py):
peel_vec_u8, string::utf8, then validate_all_bytes_consumed. -/
def decodeCancelPayload (bs : List Nat) : Except DErr CancelDissolutionAction :=
  match peelVecU8 bs with
  | .error er => .error er
  | .ok (reason, r1) =>
    match validateAllBytesConsumed r1 with
    | .error er => .error er
    | .ok _ => .ok ⟨reason⟩

/-- Modelled from the spec: bcs::from_bytes for CancelStreamAction, as used by
the replacement code of fix_action_security.py / fix_all_actions.py.  Per the
spec's codec contract (section 4.1) the decode fails unless the byte stream
matches the shape exactly and no bytes remain. -/
def fromBytesCancelStream (bs : List Nat) : Except DErr CancelStreamAction :=
  match peelAddress bs with
  | .error er => .error er
  | .ok (sid, r1) =>
    match peelVecU8 r1 with
    | .error er => .error er
    | .ok (reason, r2) =>
      match validateAllBytesConsumed r2 with
      | .error er => .error er
      | .ok _ => .ok ⟨sid, reason⟩

/-! ## Dispatch step events

Each dispatch function below returns, next to its result, the list of steps it
performed in source order: the type-tag check, the version check, the payload
decode, each business-validation assert, each mutation of the shared config,
and the cursor advance.  The trace mirrors the line order of the embedded
Move code; a failing step is recorded and is the last event of the trace. -/

/-- One observable step of a dispatch operation. -/
inductive Ev where
  | tagCheck
  | versionCheck
  | decodeEv
  | validate
  | mutate
  | advance
deriving DecidableEq

/-- Number of cursor advances in a trace. -/
def countAdv (l : List Ev) : Nat :=
  (l.filter (fun x => decide (x = Ev.advance))).length

/-- True when no business-validation event occurs after a mutation event. -/
def noValAfterMut : List Ev → Bool
  | [] => true
  | Ev.mutate :: t => decide (Ev.validate ∉ t) && noValAfterMut t
  | _ :: t => noValAfterMut t

/-! ## The dissolution dispatch functions

Transcribed from the replacement Move code embedded in
fix_financial_actions.py (do_initiate_dissolution, do_batch_distribute) and
complete_migration.py (do_finalize_dissolution, do_cancel_dissolution).
`action_validation::assert_action_type` is modelled from the spec as the
type-tag equality check aborting with `wrongActionType` (futarchy_core::
action_validation is not under src/); borrowing the spec at the cursor aborts
when the cursor is past the end. -/

/-- do_initiate_dissolution, fix_financial_actions.py lines 41-81.  Note the
source order: the two config mutations precede the three business asserts. -/
def do_initiate_dissolution (st : FutarchyConfigM) (e : Executable) :
    List Ev × Except DErr (FutarchyConfigM × Executable) :=
  match e.intent.action_specs.get? e.action_idx with
  | none => ([], .error .executableExhausted)
  | some spec =>
    if spec.tag ≠ MvType.initiateDissolutionT then
      ([.tagCheck], .error .wrongActionType)
    else
      match decodeInitiatePayload spec.payload with
      | .error er => ([.tagCheck, .decodeEv], .error er)
      | .ok a =>
        if a.reason.length = 0 then
          ([.tagCheck, .decodeEv, .mutate, .mutate, .validate], .error .invalidRatioErr)
        else if ¬ a.distribution_method ≤ 2 then
          ([.tagCheck, .decodeEv, .mutate, .mutate, .validate, .validate],
            .error .invalidRatioErr)
        else if a.final_operations_deadline = 0 then
          ([.tagCheck, .decodeEv, .mutate, .mutate, .validate, .validate, .validate],
            .error .invalidThresholdErr)
        else
          ([.tagCheck, .decodeEv, .mutate, .mutate, .validate, .validate, .validate,
              .advance],
            .ok ({ st with operational_state := stateDissolving, proposals_enabled := false },
              increment_action_idx e))

/-- do_batch_distribute, fix_financial_actions.py lines 86-120 (tagged
action_types::DistributeAsset; reads the config, never mutates it). -/
def do_batch_distribute (st : FutarchyConfigM) (e : Executable) :
    List Ev × Except DErr (FutarchyConfigM × Executable) :=
  match e.intent.action_specs.get? e.action_idx with
  | none => ([], .error .executableExhausted)
  | some spec =>
    if spec.tag ≠ MvType.distributeAssetT then
      ([.tagCheck], .error .wrongActionType)
    else
      match decodeBatchPayload spec.payload with
      | .error er => ([.tagCheck, .decodeEv], .error er)
      | .ok a =>
        if st.operational_state ≠ stateDissolving then
          ([.tagCheck, .decodeEv, .validate], .error .dissolutionNotActive)
        else if a.asset_types.length = 0 then
          ([.tagCheck, .decodeEv, .validate, .validate], .error .emptyAssetList)
        else
          ([.tagCheck, .decodeEv, .validate, .validate, .advance],
            .ok (st, increment_action_idx e))

/-- do_finalize_dissolution, complete_migration.py lines 21-58. -/
def do_finalize_dissolution (st : FutarchyConfigM) (e : Executable) :
    List Ev × Except DErr (FutarchyConfigM × Executable) :=
  match e.intent.action_specs.get? e.action_idx with
  | none => ([], .error .executableExhausted)
  | some spec =>
    if spec.tag ≠ MvType.finalizeDissolutionT then
      ([.tagCheck], .error .wrongActionType)
    else
      match decodeFinalizePayload spec.payload with
      | .error er => ([.tagCheck, .decodeEv], .error er)
      | .ok a =>
        if st.operational_state ≠ stateDissolving then
          ([.tagCheck, .decodeEv, .validate], .error .dissolutionNotActive)
        else if a.final_recipient = zeroAddress then
          ([.tagCheck, .decodeEv, .validate, .validate], .error .invalidRecipient)
        else
          ([.tagCheck, .decodeEv, .validate, .validate, .mutate, .advance],
            .ok ({ st with operational_state := stateDissolved },
              increment_action_idx e))

/-- do_cancel_dissolution, complete_migration.py lines 66-100. -/
def do_cancel_dissolution (st : FutarchyConfigM) (e : Executable) :
    List Ev × Except DErr (FutarchyConfigM × Executable) :=
  match e.intent.action_specs.get? e.action_idx with
  | none => ([], .error .executableExhausted)
  | some spec =>
    if spec.tag ≠ MvType.cancelDissolutionT then
      ([.tagCheck], .error .wrongActionType)
    else
      match decodeCancelPayload spec.payload with
      | .error er => ([.tagCheck, .decodeEv], .error er)
      | .ok a =>
        if st.operational_state ≠ stateDissolving then
          ([.tagCheck, .decodeEv, .validate], .error .notDissolving)
        else if a.reason.length = 0 then
          ([.tagCheck, .decodeEv, .validate, .validate], .error .invalidRatioErr)
        else
          ([.tagCheck, .decodeEv, .validate, .validate, .mutate, .mutate, .advance],
            .ok ({ st with operational_state := stateActive, proposals_enabled := true },
              increment_action_idx e))

/-- The four dissolution action kinds. -/
inductive StepKind where
  | initiate
  | batchDistribute
  | finalize
  | cancel
deriving DecidableEq

/-- Dispatch of the action kind at the cursor. -/
def dispatchStep : StepKind → FutarchyConfigM → Executable →
    List Ev × Except DErr (FutarchyConfigM × Executable)
  | .initiate, st, e => do_initiate_dissolution st e
  | .batchDistribute, st, e => do_batch_distribute st e
  | .finalize, st, e => do_finalize_dissolution st e
  | .cancel, st, e => do_cancel_dissolution st e

/-- The statically expected action type tag of each dispatch site. -/
def expectedTag : StepKind → MvType
  | .initiate => .initiateDissolutionT
  | .batchDistribute => .distributeAssetT
  | .finalize => .finalizeDissolutionT
  | .cancel => .cancelDissolutionT

/-- Running a sequence of dispatch steps inside one transaction; the first
failure aborts the whole run. -/
def runIntent : List StepKind → FutarchyConfigM → Executable →
    Except DErr (FutarchyConfigM × Executable)
  | [], st, e => .ok (st, e)
  | k :: ks, st, e =>
    match (dispatchStep k st e).2 with
    | .error er => .error er
    | .ok (st', e') => runIntent ks st' e'

/-- Modelled from the spec: the observable outcome of the enclosing
transaction (section 5).  A failure at any step aborts the transaction
atomically, discarding every effect: the observable state and cursor are then
the initial ones. -/
def txObservable (ks : List StepKind) (st : FutarchyConfigM) (e : Executable) :
    FutarchyConfigM × Nat :=
  match runIntent ks st e with
  | .ok (st', e') => (st', e'.action_idx)
  | .error _ => (st, e.action_idx)

/-- Modelled from the spec: a linear obligation value ("hot potato"
ResourceRequest) produced by an oracle-style action instead of an immediate
effect; oracle_actions.move is not under src/. -/
structure ResourceRequestM where
  spec : ActionSpec
deriving DecidableEq

/-- Modelled from the spec: an oracle-style dispatch operation (section 4.4).
It checks the type tag, advances the cursor exactly once and returns the
linear obligation value to the caller instead of applying an effect. -/
def do_oracle_request (e : Executable) :
    List Ev × Except DErr (ResourceRequestM × Executable) :=
  match e.intent.action_specs.get? e.action_idx with
  | none => ([], .error .executableExhausted)
  | some spec =>
    if spec.tag ≠ MvType.oracleRequestT then
      ([.tagCheck], .error .wrongActionType)
    else
      ([.tagCheck, .advance], .ok (⟨spec⟩, increment_action_idx e))

/-- The secure dispatch pattern produced by fix_action_security.py /
fix_all_actions.py (their replacement strings), instantiated at
CancelStreamAction: assert is_current_action (EWrongAction), assert
spec_version == 1 (EUnsupportedActionVersion), then bcs::from_bytes, then
increment_action_idx.  `is_current_action` is modelled from the spec as the
tag equality check at the cursor; the stream-specific business logic after
deserialization is not under src/, so the decoded action is returned. -/
def secure_do_cancel_stream (e : Executable) :
    List Ev × Except DErr (CancelStreamAction × Executable) :=
  match e.intent.action_specs.get? e.action_idx with
  | none => ([], .error .executableExhausted)
  | some spec =>
    if spec.tag ≠ MvType.cancelStreamT then
      ([.tagCheck], .error .wrongActionType)
    else if spec.version ≠ 1 then
      ([.tagCheck, .versionCheck], .error .unsupportedActionVersion)
    else
      match fromBytesCancelStream spec.payload with
      | .error er => ([.tagCheck, .versionCheck, .decodeEv], .error er)
      | .ok a =>
        ([.tagCheck, .versionCheck, .decodeEv, .advance],
          .ok (a, increment_action_idx e))

/-! ## Codec lemmas: decoding an encoding consumes exactly the encoded bytes -/

theorem decodeUlebCore_encFuel : ∀ (fuel n : Nat), n ≤ fuel → n < 128 * (fuel + 1) →
    ∀ (t : List Nat) (shift acc : Nat),
    decodeUlebCore (encodeUlebFuel fuel n ++ t) shift acc = .ok (acc + n * 2 ^ shift, t) := by
  intro fuel
  induction fuel with
  | zero =>
    intro n hle hlt t shift acc
    have h : n < 128 := by omega
    simp [encodeUlebFuel, decodeUlebCore, h]
  | succ fuel ih =>
    intro n hle hlt t shift acc
    by_cases h : n < 128
    · simp [encodeUlebFuel, decodeUlebCore, h]
    · have hb : ¬ (n % 128 + 128 < 128) := by omega
      simp only [encodeUlebFuel, h, if_false, List.cons_append, decodeUlebCore, hb,
        List.append_eq]
      rw [ih (n / 128) (by omega) (by omega) t (shift + 7)]
      congr 2
      have h1 : n % 128 + 128 - 128 = n % 128 := by omega
      rw [h1, pow_add]
      conv_rhs => rw [← Nat.mod_add_div n 128]
      ring

theorem decodeUlebCore_enc (n : Nat) : ∀ (t : List Nat) (shift acc : Nat),
    decodeUlebCore (encodeUleb n ++ t) shift acc = .ok (acc + n * 2 ^ shift, t) := by
  intro t shift acc
  exact decodeUlebCore_encFuel n n (le_refl n) (by omega) t shift acc

theorem peelVecU8_enc (v t : List Nat) :
    peelVecU8 (encodeVecU8 v ++ t) = .ok (v, t) := by
  unfold peelVecU8 encodeVecU8
  rw [List.append_assoc, decodeUlebCore_enc]
  simp [List.take_left, List.drop_left]

theorem peelU8_cons (b : Nat) (t : List Nat) : peelU8 (b :: t) = .ok (b, t) := rfl

theorem peelBool_enc (b : Bool) (t : List Nat) :
    peelBool (encodeBool b ++ t) = .ok (b, t) := by
  cases b <;> rfl

theorem peelLE_enc : ∀ (w v : Nat) (t : List Nat), v < 256 ^ w →
    peelLE w (encodeLE w v ++ t) = .ok (v, t) := by
  intro w
  induction w with
  | zero =>
    intro v t h
    simp only [pow_zero, Nat.lt_one_iff] at h
    subst h
    rfl
  | succ w ih =>
    intro v t h
    have hdiv : v / 256 < 256 ^ w := by
      rw [pow_succ, Nat.mul_comm] at h
      exact Nat.div_lt_of_lt_mul h
    simp only [encodeLE, List.cons_append, peelLE]
    rw [ih (v / 256) t hdiv]
    have hm : v % 256 + 256 * (v / 256) = v := by omega
    simp [hm]

theorem peelU64_enc (v : Nat) (t : List Nat) (h : v < 256 ^ 8) :
    peelU64 (encodeU64 v ++ t) = .ok (v, t) :=
  peelLE_enc 8 v t h

theorem peelAddress_enc (v t : List Nat) (h : v.length = 32) :
    peelAddress (v ++ t) = .ok (v, t) := by
  unfold peelAddress
  rw [← h]
  simp [List.take_left, List.drop_left]

theorem peelVecList_enc (vs : List (List Nat)) : ∀ (t : List Nat),
    peelVecList vs.length (concatAll (vs.map encodeVecU8) ++ t) = .ok (vs, t) := by
  induction vs with
  | nil => intro t; rfl
  | cons v vs ih =>
    intro t
    simp only [List.map_cons, concatAll, List.length_cons, List.append_assoc, peelVecList]
    simp only [peelVecU8_enc, ih t]

theorem peelVecVecU8_enc (vs : List (List Nat)) (t : List Nat) :
    peelVecVecU8 (encodeVecVecU8 vs ++ t) = .ok (vs, t) := by
  unfold peelVecVecU8 encodeVecVecU8
  rw [List.append_assoc, decodeUlebCore_enc]
  simp only [Nat.zero_add, pow_zero, Nat.mul_one]
  exact peelVecList_enc vs t

theorem decodeInitiatePayload_enc (a : InitiateDissolutionAction) (t : List Nat)
    (h : a.final_operations_deadline < 256 ^ 8) :
    decodeInitiatePayload (encodeInitiate a ++ t) =
      if t = [] then .ok a else .error .malformedPayload := by
  unfold decodeInitiatePayload encodeInitiate
  simp only [List.append_assoc, List.singleton_append, List.cons_append, List.nil_append]
  simp only [peelVecU8_enc]
  simp only [peelU8_cons]
  simp only [peelBool_enc]
  rw [peelU64_enc _ _ h]
  simp only [validateAllBytesConsumed]
  by_cases ht : t = [] <;> simp [ht]

theorem decodeBatchPayload_enc (a : BatchDistributeAction) (t : List Nat) :
    decodeBatchPayload (encodeBatch a ++ t) =
      if t = [] then .ok a else .error .malformedPayload := by
  unfold decodeBatchPayload encodeBatch
  simp only [peelVecVecU8_enc, validateAllBytesConsumed]
  by_cases ht : t = [] <;> simp [ht]

theorem decodeFinalizePayload_enc (a : FinalizeDissolutionAction) (t : List Nat)
    (h : a.final_recipient.length = 32) :
    decodeFinalizePayload (encodeFinalize a ++ t) =
      if t = [] then .ok a else .error .malformedPayload := by
  unfold decodeFinalizePayload encodeFinalize
  simp only [List.append_assoc]
  simp only [peelAddress_enc _ _ h, peelBool_enc, validateAllBytesConsumed]
  by_cases ht : t = [] <;> simp [ht]

theorem decodeCancelPayload_enc (a : CancelDissolutionAction) (t : List Nat) :
    decodeCancelPayload (encodeCancel a ++ t) =
      if t = [] then .ok a else .error .malformedPayload := by
  unfold decodeCancelPayload encodeCancel
  simp only [peelVecU8_enc, validateAllBytesConsumed]
  by_cases ht : t = [] <;> simp [ht]

theorem fromBytesCancelStream_enc (a : CancelStreamAction) (t : List Nat)
    (h : a.stream_id.length = 32) :
    fromBytesCancelStream (encodeCancelStream a ++ t) =
      if t = [] then .ok a else .error .malformedPayload := by
  unfold fromBytesCancelStream encodeCancelStream
  simp only [List.append_assoc]
  simp only [peelAddress_enc _ _ h, peelVecU8_enc, validateAllBytesConsumed]
  by_cases ht : t = [] <;> simp [ht]

/-! ## Dispatch step lemmas -/

theorem do_initiate_ok_succ (st st' : FutarchyConfigM) (e e' : Executable) (tr : List Ev)
    (h : do_initiate_dissolution st e = (tr, .ok (st', e'))) :
    e'.action_idx = e.action_idx + 1 ∧ e'.intent = e.intent ∧
      e.action_idx < e.intent.action_specs.length ∧ countAdv tr = 1 := by
  unfold do_initiate_dissolution at h
  split at h
  · simp at h
  · next spec heq =>
    have hlt := (List.get?_eq_some.mp heq).1
    split at h
    · simp at h
    · split at h
      · simp at h
      · split at h
        · simp at h
        · split at h
          · simp at h
          · split at h
            · simp at h
            · simp only [Prod.mk.injEq, Except.ok.injEq] at h
              obtain ⟨htr, hst, he⟩ := h
              subst htr
              subst he
              exact ⟨rfl, rfl, hlt, by decide⟩

theorem do_batch_ok_succ (st st' : FutarchyConfigM) (e e' : Executable) (tr : List Ev)
    (h : do_batch_distribute st e = (tr, .ok (st', e'))) :
    e'.action_idx = e.action_idx + 1 ∧ e'.intent = e.intent ∧
      e.action_idx < e.intent.action_specs.length ∧ countAdv tr = 1 := by
  unfold do_batch_distribute at h
  split at h
  · simp at h
  · next spec heq =>
    have hlt := (List.get?_eq_some.mp heq).1
    split at h
    · simp at h
    · split at h
      · simp at h
      · split at h
        · simp at h
        · split at h
          · simp at h
          · simp only [Prod.mk.injEq, Except.ok.injEq] at h
            obtain ⟨htr, hst, he⟩ := h
            subst htr
            subst he
            exact ⟨rfl, rfl, hlt, by decide⟩

theorem do_finalize_ok_succ (st st' : FutarchyConfigM) (e e' : Executable) (tr : List Ev)
    (h : do_finalize_dissolution st e = (tr, .ok (st', e'))) :
    e'.action_idx = e.action_idx + 1 ∧ e'.intent = e.intent ∧
      e.action_idx < e.intent.action_specs.length ∧ countAdv tr = 1 := by
  unfold do_finalize_dissolution at h
  split at h
  · simp at h
  · next spec heq =>
    have hlt := (List.get?_eq_some.mp heq).1
    split at h
    · simp at h
    · split at h
      · simp at h
      · split at h
        · simp at h
        · split at h
          · simp at h
          · simp only [Prod.mk.injEq, Except.ok.injEq] at h
            obtain ⟨htr, hst, he⟩ := h
            subst htr
            subst he
            exact ⟨rfl, rfl, hlt, by decide⟩

theorem do_cancel_ok_succ (st st' : FutarchyConfigM) (e e' : Executable) (tr : List Ev)
    (h : do_cancel_dissolution st e = (tr, .ok (st', e'))) :
    e'.action_idx = e.action_idx + 1 ∧ e'.intent = e.intent ∧
      e.action_idx < e.intent.action_specs.length ∧ countAdv tr = 1 := by
  unfold do_cancel_dissolution at h
  split at h
  · simp at h
  · next spec heq =>
    have hlt := (List.get?_eq_some.mp heq).1
    split at h
    · simp at h
    · split at h
      · simp at h
      · split at h
        · simp at h
        · split at h
          · simp at h
          · simp only [Prod.mk.injEq, Except.ok.injEq] at h
            obtain ⟨htr, hst, he⟩ := h
            subst htr
            subst he
            exact ⟨rfl, rfl, hlt, by decide⟩

theorem dispatchStep_ok_succ (k : StepKind) (st st' : FutarchyConfigM) (e e' : Executable)
    (tr : List Ev) (h : dispatchStep k st e = (tr, .ok (st', e'))) :
    e'.action_idx = e.action_idx + 1 ∧ e'.intent = e.intent ∧
      e.action_idx < e.intent.action_specs.length ∧ countAdv tr = 1 := by
  cases k
  · exact do_initiate_ok_succ st st' e e' tr h
  · exact do_batch_ok_succ st st' e e' tr h
  · exact do_finalize_ok_succ st st' e e' tr h
  · exact do_cancel_ok_succ st st' e e' tr h

theorem do_oracle_ok_succ (e e' : Executable) (r : ResourceRequestM) (tr : List Ev)
    (h : do_oracle_request e = (tr, .ok (r, e'))) :
    e'.action_idx = e.action_idx + 1 ∧ e'.intent = e.intent ∧
      e.action_idx < e.intent.action_specs.length ∧ countAdv tr = 1 := by
  unfold do_oracle_request at h
  split at h
  · simp at h
  · next spec heq =>
    have hlt := (List.get?_eq_some.mp heq).1
    split at h
    · simp at h
    · simp only [Prod.mk.injEq, Except.ok.injEq] at h
      obtain ⟨htr, hr, he⟩ := h
      subst htr
      subst he
      exact ⟨rfl, rfl, hlt, by decide⟩

theorem dispatchStep_error_no_advance (k : StepKind) (st : FutarchyConfigM) (e : Executable)
    (tr : List Ev) (er : DErr) (h : dispatchStep k st e = (tr, .error er)) :
    Ev.advance ∉ tr := by
  cases k <;>
    (simp only [dispatchStep] at h
     first
     | unfold do_initiate_dissolution at h
     | unfold do_batch_distribute at h
     | unfold do_finalize_dissolution at h
     | unfold do_cancel_dissolution at h)
  all_goals
    repeat' split at h
  all_goals
    simp only [Prod.mk.injEq] at h
  all_goals
    first
    | (obtain ⟨htr, -⟩ := h
       subst htr
       decide)
    | simp at h

theorem dispatchStep_wrong_tag (k : StepKind) (st : FutarchyConfigM) (e : Executable)
    (spec : ActionSpec) (tr : List Ev) (r : Except DErr (FutarchyConfigM × Executable))
    (hs : e.intent.action_specs.get? e.action_idx = some spec)
    (hne : spec.tag ≠ expectedTag k) (h : dispatchStep k st e = (tr, r)) :
    r = .error .wrongActionType ∧ tr = [Ev.tagCheck] := by
  cases k <;>
    simp only [expectedTag] at hne <;>
    simp only [dispatchStep, do_initiate_dissolution, do_batch_distribute,
      do_finalize_dissolution, do_cancel_dissolution, hs, hne, ite_true,
      ne_eq, not_false_eq_true, if_true] at h <;>
    simp only [Prod.mk.injEq] at h <;>
    exact ⟨h.2.symm, h.1.symm⟩

theorem secure_wrong_tag (e : Executable) (spec : ActionSpec) (tr : List Ev)
    (r : Except DErr (CancelStreamAction × Executable))
    (hs : e.intent.action_specs.get? e.action_idx = some spec)
    (hne : spec.tag ≠ MvType.cancelStreamT) (h : secure_do_cancel_stream e = (tr, r)) :
    r = .error .wrongActionType ∧ tr = [Ev.tagCheck] := by
  simp only [secure_do_cancel_stream, hs, hne, ne_eq, not_false_eq_true, if_true] at h
  simp only [Prod.mk.injEq] at h
  exact ⟨h.2.symm, h.1.symm⟩

theorem oracle_wrong_tag (e : Executable) (spec : ActionSpec) (tr : List Ev)
    (r : Except DErr (ResourceRequestM × Executable))
    (hs : e.intent.action_specs.get? e.action_idx = some spec)
    (hne : spec.tag ≠ MvType.oracleRequestT) (h : do_oracle_request e = (tr, r)) :
    r = .error .wrongActionType ∧ tr = [Ev.tagCheck] := by
  simp only [do_oracle_request, hs, hne, ne_eq, not_false_eq_true, if_true] at h
  simp only [Prod.mk.injEq] at h
  exact ⟨h.2.symm, h.1.symm⟩

theorem secure_bad_version (e : Executable) (spec : ActionSpec) (tr : List Ev)
    (r : Except DErr (CancelStreamAction × Executable))
    (hs : e.intent.action_specs.get? e.action_idx = some spec)
    (htag : spec.tag = MvType.cancelStreamT) (hv : spec.version ≠ 1)
    (h : secure_do_cancel_stream e = (tr, r)) :
    r = .error .unsupportedActionVersion ∧ tr = [Ev.tagCheck, Ev.versionCheck] := by
  simp only [secure_do_cancel_stream, hs, htag, hv, ne_eq, not_true_eq_false, if_false,
    not_false_eq_true, if_true] at h
  simp only [Prod.mk.injEq] at h
  exact ⟨h.2.symm, h.1.symm⟩

theorem do_batch_tr_noValAfterMut (st : FutarchyConfigM) (e : Executable) (tr : List Ev)
    (r : Except DErr (FutarchyConfigM × Executable)) (h : do_batch_distribute st e = (tr, r)) :
    noValAfterMut tr = true := by
  unfold do_batch_distribute at h
  repeat' split at h
  all_goals
    simp only [Prod.mk.injEq] at h
  all_goals
    obtain ⟨htr, -⟩ := h
  all_goals
    subst htr
  all_goals
    decide

theorem do_finalize_tr_noValAfterMut (st : FutarchyConfigM) (e : Executable) (tr : List Ev)
    (r : Except DErr (FutarchyConfigM × Executable)) (h : do_finalize_dissolution st e = (tr, r)) :
    noValAfterMut tr = true := by
  unfold do_finalize_dissolution at h
  repeat' split at h
  all_goals
    simp only [Prod.mk.injEq] at h
  all_goals
    obtain ⟨htr, -⟩ := h
  all_goals
    subst htr
  all_goals
    decide

theorem do_cancel_tr_noValAfterMut (st : FutarchyConfigM) (e : Executable) (tr : List Ev)
    (r : Except DErr (FutarchyConfigM × Executable)) (h : do_cancel_dissolution st e = (tr, r)) :
    noValAfterMut tr = true := by
  unfold do_cancel_dissolution at h
  repeat' split at h
  all_goals
    simp only [Prod.mk.injEq] at h
  all_goals
    obtain ⟨htr, -⟩ := h
  all_goals
    subst htr
  all_goals
    decide

theorem runIntent_append (ks1 ks2 : List StepKind) (st : FutarchyConfigM) (e : Executable) :
    runIntent (ks1 ++ ks2) st e =
      match runIntent ks1 st e with
      | .error er => .error er
      | .ok (st', e') => runIntent ks2 st' e' := by
  induction ks1 generalizing st e with
  | nil => simp [runIntent]
  | cons k ks ih =>
    simp only [List.cons_append, runIntent]
    cases hk : (dispatchStep k st e).2 with
    | error er => simp
    | ok p =>
      cases p with
      | mk st1 e1 => simp [ih]

theorem runIntent_ok_advances (ks : List StepKind) :
    ∀ (st st' : FutarchyConfigM) (e e' : Executable),
      runIntent ks st e = .ok (st', e') →
      e'.action_idx = e.action_idx + ks.length ∧ e'.intent = e.intent := by
  induction ks with
  | nil =>
    intro st st' e e' h
    simp only [runIntent, Except.ok.injEq, Prod.mk.injEq] at h
    obtain ⟨h1, h2⟩ := h
    subst h1
    subst h2
    simp
  | cons k ks ih =>
    intro st st' e e' h
    simp only [runIntent] at h
    cases hk : (dispatchStep k st e).2 with
    | error er => rw [hk] at h; simp at h
    | ok p =>
      cases p with
      | mk st1 e1 =>
        rw [hk] at h
        obtain ⟨h1, h2, -, -⟩ :=
          dispatchStep_ok_succ k st st1 e e1 (dispatchStep k st e).1
            (by rw [← hk])
        obtain ⟨h3, h4⟩ := ih st1 st' e1 e' h
        constructor
        · simp only [List.length_cons]
          omega
        · rw [h4, h2]

theorem runIntent_ok_bound (ks : List StepKind) :
    ∀ (st st' : FutarchyConfigM) (e e' : Executable),
      runIntent ks st e = .ok (st', e') →
      e.action_idx ≤ e.intent.action_specs.length →
      e'.action_idx ≤ e'.intent.action_specs.length := by
  induction ks with
  | nil =>
    intro st st' e e' h hb
    simp only [runIntent, Except.ok.injEq, Prod.mk.injEq] at h
    obtain ⟨h1, h2⟩ := h
    subst h1
    subst h2
    exact hb
  | cons k ks ih =>
    intro st st' e e' h hb
    simp only [runIntent] at h
    cases hk : (dispatchStep k st e).2 with
    | error er => rw [hk] at h; simp at h
    | ok p =>
      cases p with
      | mk st1 e1 =>
        rw [hk] at h
        obtain ⟨h1, h2, h3, -⟩ := dispatchStep_ok_succ k st st1 e e1
          (dispatchStep k st e).1 (by rw [← hk])
        exact ih st1 st' e1 e' h (by rw [h1, h2]; omega)

/-! ## Decoder registry (C6) -/

/-- The six stream action kinds whose display decoders the scripts
re-register. -/
inductive StreamKind where
  | createStream
  | cancelStream
  | withdrawStream
  | updateStream
  | pauseStream
  | resumeStream
deriving DecidableEq

/-- The actual Move type of each stream action struct, as written in the
replacement registrations of fix_all_issues.py#fix_p1_decoder_registrations
(CreateStreamAction keeps the CoinPlaceholder type parameter used there). -/
def actualStreamType : StreamKind → MvType
  | .createStream => .createStreamCoinPlaceholderT
  | .cancelStream => .cancelStreamT
  | .withdrawStream => .withdrawStreamT
  | .updateStream => .updateStreamT
  | .pauseStream => .pauseStreamT
  | .resumeStream => .resumeStreamT

/-- The placeholder `...ActionDecoder` type each stream decoder is registered
under by fix_decoder_issues.py#fix_stream_decoder. -/
def decoderStreamType : StreamKind → MvType
  | .createStream => .createStreamDecT
  | .cancelStream => .cancelStreamDecT
  | .withdrawStream => .withdrawStreamDecT
  | .updateStream => .updateStreamDecT
  | .pauseStream => .pauseStreamDecT
  | .resumeStream => .resumeStreamDecT

/-- Decoder-registry keys for the stream actions after
fix_decoder_issues.py#fix_stream_decoder: each decoder is registered under a
placeholder Decoder type (the replacement strings marked "TODO: Fix"). -/
def registryStreamV1 : List MvType :=
  [.createStreamDecT, .cancelStreamDecT, .withdrawStreamDecT, .updateStreamDecT,
   .pauseStreamDecT, .resumeStreamDecT]

/-- Decoder-registry keys for the stream actions after
fix_all_issues.py#fix_p1_decoder_registrations: the actual action types. -/
def registryStreamV2 : List MvType :=
  [.createStreamCoinPlaceholderT, .cancelStreamT, .withdrawStreamT, .updateStreamT,
   .pauseStreamT, .resumeStreamT]

/-- Modelled from the spec: decode_for_display looks the triple's tag up in
the registry side-table (sections 4.5 and 6); a triple can be accepted only
when its tag is a registered key.  The decoder function bodies are not under
src/ — only the registration keys are — so the registry is modelled by its
key set. -/
def displayTagRegistered (reg : List MvType) (tag : MvType) : Bool :=
  decide (tag ∈ reg)

/-- Whether the secure dispatch pattern instantiated at CancelStreamAction
accepts a (tag, version, payload) triple, via secure_do_cancel_stream on a
one-action intent. -/
def secureAcceptsCancelStream (spec : ActionSpec) : Bool :=
  match (secure_do_cancel_stream ⟨⟨[spec]⟩, 0⟩).2 with
  | .ok _ => true
  | .error _ => false

/-! ## Concrete example inputs -/

/-- A nonzero 32-byte address. -/
def exAddr : List Nat := 1 :: List.replicate 31 0

/-- A well-formed FinalizeDissolution spec carrying schema version 7. -/
def exSpecFinalizeV7 : ActionSpec :=
  ⟨.finalizeDissolutionT, 7, encodeFinalize ⟨exAddr, false⟩⟩

/-- One-action executable over exSpecFinalizeV7. -/
def exExecFinalizeV7 : Executable := ⟨⟨[exSpecFinalizeV7]⟩, 0⟩

/-- A config in the dissolving state. -/
def exStDissolving : FutarchyConfigM := ⟨stateDissolving, false⟩

/-- A config in the active state. -/
def exStActive : FutarchyConfigM := ⟨stateActive, true⟩

/-- A valid InitiateDissolution payload. -/
def exInitiateAction : InitiateDissolutionAction := ⟨[104, 105], 1, false, 1000⟩

/-- A well-formed InitiateDissolution spec. -/
def exSpecInitiate : ActionSpec := ⟨.initiateDissolutionT, 1, encodeInitiate exInitiateAction⟩

/-- One-action executable over exSpecInitiate. -/
def exExecInitiate : Executable := ⟨⟨[exSpecInitiate]⟩, 0⟩

/-- A spec whose tag does not match the InitiateDissolution site. -/
def exSpecWrongTag : ActionSpec := ⟨.cancelDissolutionT, 1, []⟩

/-- One-action executable over exSpecWrongTag. -/
def exExecWrongTag : Executable := ⟨⟨[exSpecWrongTag]⟩, 0⟩

/-- A CancelStream spec carrying schema version 2. -/
def exSpecCancelStreamV2 : ActionSpec := ⟨.cancelStreamT, 2, [0]⟩

/-- One-action executable over exSpecCancelStreamV2. -/
def exExecCancelStreamV2 : Executable := ⟨⟨[exSpecCancelStreamV2]⟩, 0⟩

/-- A CancelStream payload value. -/
def exCancelStreamAction : CancelStreamAction := ⟨exAddr, [120]⟩

/-- A CancelStream spec the secure dispatch pattern accepts. -/
def exSpecCancelStream : ActionSpec :=
  ⟨.cancelStreamT, 1, encodeCancelStream exCancelStreamAction⟩

/-! ## Claim theorems C1 - C9 -/

/-- C1: at every dispatch site embedded in the scripts (the four dissolution
sites, the secure rewritten pattern, the oracle site), dispatching an
ActionSpec whose tag differs from the site's statically expected tag fails
with WrongActionType and the step trace is exactly the tag check: no decode
event occurs, so the payload is never passed to the codec. -/
theorem c1_tag_mismatch_no_decode :
    (∀ (k : StepKind) (st : FutarchyConfigM) (e : Executable) (spec : ActionSpec)
      (tr : List Ev) (r : Except DErr (FutarchyConfigM × Executable)),
      e.intent.action_specs.get? e.action_idx = some spec →
      spec.tag ≠ expectedTag k → dispatchStep k st e = (tr, r) →
      r = .error .wrongActionType ∧ Ev.decodeEv ∉ tr)
    ∧ (∀ (e : Executable) (spec : ActionSpec) (tr : List Ev)
      (r : Except DErr (CancelStreamAction × Executable)),
      e.intent.action_specs.get? e.action_idx = some spec →
      spec.tag ≠ MvType.cancelStreamT → secure_do_cancel_stream e = (tr, r) →
      r = .error .wrongActionType ∧ Ev.decodeEv ∉ tr)
    ∧ (∀ (e : Executable) (spec : ActionSpec) (tr : List Ev)
      (r : Except DErr (ResourceRequestM × Executable)),
      e.intent.action_specs.get? e.action_idx = some spec →
      spec.tag ≠ MvType.oracleRequestT → do_oracle_request e = (tr, r) →
      r = .error .wrongActionType ∧ Ev.decodeEv ∉ tr) := by
  refine ⟨?_, ?_, ?_⟩
  · intro k st e spec tr r hs hne h
    obtain ⟨h1, h2⟩ := dispatchStep_wrong_tag k st e spec tr r hs hne h
    subst h2
    exact ⟨h1, by decide⟩
  · intro e spec tr r hs hne h
    obtain ⟨h1, h2⟩ := secure_wrong_tag e spec tr r hs hne h
    subst h2
    exact ⟨h1, by decide⟩
  · intro e spec tr r hs hne h
    obtain ⟨h1, h2⟩ := oracle_wrong_tag e spec tr r hs hne h
    subst h2
    exact ⟨h1, by decide⟩

/-- Witness for C1: a CancelDissolution-tagged spec dispatched at the
InitiateDissolution site fails with WrongActionType and no decode event. -/
theorem c1_tag_mismatch_no_decode_witness :
    (dispatchStep .initiate exStActive exExecWrongTag).2 = .error .wrongActionType ∧
      Ev.decodeEv ∉ (dispatchStep .initiate exStActive exExecWrongTag).1 :=
  c1_tag_mismatch_no_decode.1 .initiate exStActive exExecWrongTag exSpecWrongTag
    (dispatchStep .initiate exStActive exExecWrongTag).1
    (dispatchStep .initiate exStActive exExecWrongTag).2
    (by decide) (by decide) rfl

/-- C2: at every dispatch site's decode step, an encoded payload with one or
more trailing bytes fails with MalformedPayload, for every action kind whose
shape is given in the scripts (the four dissolution shapes and
CancelStreamAction), independently of the spec's tag and version fields. -/
theorem c2_trailing_bytes_malformed :
    (∀ (a : InitiateDissolutionAction) (extra : List Nat),
      a.final_operations_deadline < 256 ^ 8 → extra ≠ [] →
      decodeInitiatePayload (encodeInitiate a ++ extra) = .error .malformedPayload)
    ∧ (∀ (a : BatchDistributeAction) (extra : List Nat), extra ≠ [] →
      decodeBatchPayload (encodeBatch a ++ extra) = .error .malformedPayload)
    ∧ (∀ (a : FinalizeDissolutionAction) (extra : List Nat),
      a.final_recipient.length = 32 → extra ≠ [] →
      decodeFinalizePayload (encodeFinalize a ++ extra) = .error .malformedPayload)
    ∧ (∀ (a : CancelDissolutionAction) (extra : List Nat), extra ≠ [] →
      decodeCancelPayload (encodeCancel a ++ extra) = .error .malformedPayload)
    ∧ (∀ (a : CancelStreamAction) (extra : List Nat),
      a.stream_id.length = 32 → extra ≠ [] →
      fromBytesCancelStream (encodeCancelStream a ++ extra) = .error .malformedPayload) := by
  refine ⟨?_, ?_, ?_, ?_, ?_⟩
  · intro a extra h hne
    rw [decodeInitiatePayload_enc a extra h]
    simp [hne]
  · intro a extra hne
    rw [decodeBatchPayload_enc a extra]
    simp [hne]
  · intro a extra h hne
    rw [decodeFinalizePayload_enc a extra h]
    simp [hne]
  · intro a extra hne
    rw [decodeCancelPayload_enc a extra]
    simp [hne]
  · intro a extra h hne
    rw [fromBytesCancelStream_enc a extra h]
    simp [hne]

/-- Witness for C2: one trailing zero byte after a valid
InitiateDissolution payload is rejected as MalformedPayload. -/
theorem c2_trailing_bytes_malformed_witness :
    decodeInitiatePayload (encodeInitiate exInitiateAction ++ [0]) =
      .error .malformedPayload :=
  c2_trailing_bytes_malformed.1 exInitiateAction [0] (by decide) (by decide)

/-- C3 counterexample: the dissolution dispatch sites perform no version
check.  do_finalize_dissolution dispatches a spec carrying schema version 7
successfully (state moves to dissolved, cursor advances) instead of failing
with UnsupportedVersion before touching the payload. -/
theorem c3_counterexample_version_ignored :
    (dispatchStep .finalize exStDissolving exExecFinalizeV7).2 =
      .ok (⟨stateDissolved, false⟩, ⟨⟨[exSpecFinalizeV7]⟩, 1⟩) := by
  rfl

/-- C3 amended: the dispatch sites rewritten by fix_action_security.py /
fix_all_actions.py do check the schema version — after the tag check and
before any decode, a spec version other than 1 fails with
EUnsupportedActionVersion; the dissolution sites rewritten by
fix_financial_actions.py / complete_migration.py never read the version. -/
theorem c3_amended_secure_sites_check_version :
    ∀ (e : Executable) (spec : ActionSpec) (tr : List Ev)
      (r : Except DErr (CancelStreamAction × Executable)),
      e.intent.action_specs.get? e.action_idx = some spec →
      spec.tag = MvType.cancelStreamT → spec.version ≠ 1 →
      secure_do_cancel_stream e = (tr, r) →
      r = .error .unsupportedActionVersion ∧
        tr = [Ev.tagCheck, Ev.versionCheck] ∧ Ev.decodeEv ∉ tr := by
  intro e spec tr r hs htag hv h
  obtain ⟨h1, h2⟩ := secure_bad_version e spec tr r hs htag hv h
  subst h2
  exact ⟨h1, rfl, by decide⟩

/-- Witness for the amended C3: a CancelStream spec with version 2 fails with
EUnsupportedActionVersion before any decode. -/
theorem c3_amended_secure_sites_check_version_witness :
    (secure_do_cancel_stream exExecCancelStreamV2).2 = .error .unsupportedActionVersion ∧
      (secure_do_cancel_stream exExecCancelStreamV2).1 = [Ev.tagCheck, Ev.versionCheck] ∧
      Ev.decodeEv ∉ (secure_do_cancel_stream exExecCancelStreamV2).1 :=
  c3_amended_secure_sites_check_version exExecCancelStreamV2 exSpecCancelStreamV2
    (secure_do_cancel_stream exExecCancelStreamV2).1
    (secure_do_cancel_stream exExecCancelStreamV2).2
    (by decide) (by decide) (by decide) rfl

/-- C4: if the first i actions of a transaction dispatch successfully and the
dispatch of the next action fails (wrong tag, unsupported version, malformed
payload or business violation alike), the failing step performs no advance —
the cursor stays at i — and the enclosing transaction aborts atomically: the
observable state and cursor afterwards are the initial ones, so no mutation
from the failing action nor any later action is visible. -/
theorem c4_failure_atomic_abort :
    ∀ (pre post : List StepKind) (k : StepKind) (st st1 : FutarchyConfigM)
      (e e1 : Executable) (er : DErr),
      runIntent pre st e = .ok (st1, e1) →
      (dispatchStep k st1 e1).2 = .error er →
      Ev.advance ∉ (dispatchStep k st1 e1).1 ∧
        txObservable (pre ++ k :: post) st e = (st, e.action_idx) := by
  intro pre post k st st1 e e1 er hpre hk
  constructor
  · exact dispatchStep_error_no_advance k st1 e1 (dispatchStep k st1 e1).1 er
      (by rw [← hk])
  · have h2 : runIntent (k :: post) st1 e1 = .error er := by
      simp only [runIntent, hk]
    have h3 : runIntent (pre ++ k :: post) st e = .error er := by
      rw [runIntent_append, hpre]
      exact h2
    unfold txObservable
    rw [h3]

/-- Witness for C4: a one-action transaction whose single dispatch fails with
WrongActionType leaves the observable state and cursor untouched. -/
theorem c4_failure_atomic_abort_witness :
    Ev.advance ∉ (dispatchStep .initiate exStActive exExecWrongTag).1 ∧
      txObservable ([] ++ [.initiate]) exStActive exExecWrongTag =
        (exStActive, exExecWrongTag.action_idx) :=
  c4_failure_atomic_abort [] [] .initiate exStActive exStActive exExecWrongTag
    exExecWrongTag .wrongActionType rfl rfl

/-- C5: every successful dispatch advances the cursor exactly once — the
trace holds exactly one advance event and the new cursor is the old one plus
one — the dispatched index is inside the intent, the intent itself is
untouched, and over a whole run the cursor moves by exactly the number of
dispatched actions (hence is non-decreasing, visits each index at most once,
and stays within 0 ≤ cursor ≤ len(actions)); this includes the oracle-style
dispatch that returns a linear obligation value instead of an effect. -/
theorem c5_advance_exactly_once :
    (∀ (k : StepKind) (st st' : FutarchyConfigM) (e e' : Executable) (tr : List Ev),
      dispatchStep k st e = (tr, .ok (st', e')) →
      e'.action_idx = e.action_idx + 1 ∧ e'.intent = e.intent ∧
        e.action_idx < e.intent.action_specs.length ∧ countAdv tr = 1)
    ∧ (∀ (e e' : Executable) (r : ResourceRequestM) (tr : List Ev),
      do_oracle_request e = (tr, .ok (r, e')) →
      e'.action_idx = e.action_idx + 1 ∧ countAdv tr = 1)
    ∧ (∀ (ks : List StepKind) (st st' : FutarchyConfigM) (e e' : Executable),
      runIntent ks st e = .ok (st', e') →
      e'.action_idx = e.action_idx + ks.length ∧ e'.intent = e.intent ∧
        (e.action_idx ≤ e.intent.action_specs.length →
          e'.action_idx ≤ e'.intent.action_specs.length)) := by
  refine ⟨?_, ?_, ?_⟩
  · exact fun k st st' e e' tr h => dispatchStep_ok_succ k st st' e e' tr h
  · intro e e' r tr h
    obtain ⟨h1, -, -, h4⟩ := do_oracle_ok_succ e e' r tr h
    exact ⟨h1, h4⟩
  · intro ks st st' e e' h
    obtain ⟨h1, h2⟩ := runIntent_ok_advances ks st st' e e' h
    exact ⟨h1, h2, fun hb => runIntent_ok_bound ks st st' e e' h hb⟩

/-- Witness for C5: the successful InitiateDissolution dispatch advances the
cursor from 0 to 1 and its trace holds exactly one advance event. -/
theorem c5_advance_exactly_once_witness :
    (⟨⟨[exSpecInitiate]⟩, 1⟩ : Executable).action_idx = exExecInitiate.action_idx + 1 ∧
      (⟨⟨[exSpecInitiate]⟩, 1⟩ : Executable).intent = exExecInitiate.intent ∧
      exExecInitiate.action_idx < exExecInitiate.intent.action_specs.length ∧
      countAdv (dispatchStep .initiate exStActive exExecInitiate).1 = 1 :=
  c5_advance_exactly_once.1 .initiate exStActive ⟨stateDissolving, false⟩
    exExecInitiate ⟨⟨[exSpecInitiate]⟩, 1⟩
    (dispatchStep .initiate exStActive exExecInitiate).1 (by rfl)

/-- C7 counterexample: the dispatch steps are not performed in the claimed
order at every site — do_initiate_dissolution performs its two config
mutations (set_operational_state, set_proposals_enabled_internal) before its
three business-validation asserts, so its trace has a mutate event followed
by validate events. -/
theorem c7_counterexample_initiate_mutates_before_validation :
    noValAfterMut (do_initiate_dissolution exStActive exExecInitiate).1 = false := by
  rfl

/-- C7 amended: the six steps appear in the stated order at the dissolution
sites except that do_initiate_dissolution applies its two config mutations
before its business-validation asserts (a failing assert still aborts the
transaction, so the early mutation is never observable); at the other three
dissolution sites every business-validation event precedes every mutation
event, in every run. -/
theorem c7_amended_validation_before_apply_elsewhere :
    ∀ (st : FutarchyConfigM) (e : Executable) (tr : List Ev)
      (r : Except DErr (FutarchyConfigM × Executable)),
      (do_batch_distribute st e = (tr, r) → noValAfterMut tr = true) ∧
      (do_finalize_dissolution st e = (tr, r) → noValAfterMut tr = true) ∧
      (do_cancel_dissolution st e = (tr, r) → noValAfterMut tr = true) := by
  intro st e tr r
  exact ⟨do_batch_tr_noValAfterMut st e tr r, do_finalize_tr_noValAfterMut st e tr r,
    do_cancel_tr_noValAfterMut st e tr r⟩

/-- Witness for the amended C7: in the successful FinalizeDissolution run all
validation events precede the mutation event. -/
theorem c7_amended_validation_before_apply_elsewhere_witness :
    noValAfterMut (do_finalize_dissolution exStDissolving exExecFinalizeV7).1 = true :=
  (c7_amended_validation_before_apply_elsewhere exStDissolving exExecFinalizeV7
    (do_finalize_dissolution exStDissolving exExecFinalizeV7).1
    (do_finalize_dissolution exStDissolving exExecFinalizeV7).2).2.1 rfl

/-- C8: decode(encode(payload)) = payload for every action kind whose shape
appears in the scripts: the four dissolution shapes, with decode the dispatch
site's field-by-field deserialization and encode the constructor's
serialization, plus the CancelStreamAction shape of the secure pattern. -/
theorem c8_decode_encode_roundtrip :
    (∀ a : InitiateDissolutionAction, 0 < a.reason.length →
      a.distribution_method ≤ 2 → 0 < a.final_operations_deadline →
      a.final_operations_deadline < 256 ^ 8 →
      decodeInitiatePayload (encodeInitiate a) = .ok a)
    ∧ (∀ a : BatchDistributeAction, 0 < a.asset_types.length →
      decodeBatchPayload (encodeBatch a) = .ok a)
    ∧ (∀ a : FinalizeDissolutionAction, a.final_recipient.length = 32 →
      a.final_recipient ≠ zeroAddress →
      decodeFinalizePayload (encodeFinalize a) = .ok a)
    ∧ (∀ a : CancelDissolutionAction, 0 < a.reason.length →
      decodeCancelPayload (encodeCancel a) = .ok a)
    ∧ (∀ a : CancelStreamAction, a.stream_id.length = 32 →
      fromBytesCancelStream (encodeCancelStream a) = .ok a) := by
  refine ⟨?_, ?_, ?_, ?_, ?_⟩
  · intro a h1 h2 h3 h4
    have h5 := decodeInitiatePayload_enc a [] h4
    simpa using h5
  · intro a h1
    have h5 := decodeBatchPayload_enc a []
    simpa using h5
  · intro a h1 h2
    have h5 := decodeFinalizePayload_enc a [] h1
    simpa using h5
  · intro a h1
    have h5 := decodeCancelPayload_enc a []
    simpa using h5
  · intro a h1
    have h5 := fromBytesCancelStream_enc a [] h1
    simpa using h5

/-- Witness for C8: the round trip at a concrete InitiateDissolution
payload. -/
theorem c8_decode_encode_roundtrip_witness :
    decodeInitiatePayload (encodeInitiate exInitiateAction) = .ok exInitiateAction :=
  c8_decode_encode_roundtrip.1 exInitiateAction (by decide) (by decide) (by decide)
    (by decide)

/-- C6 counterexample: after fix_decoder_issues.py#fix_stream_decoder the six
stream decoders are registered under placeholder `...ActionDecoder` types.
The dispatch core accepts the triple exSpecCancelStream (tag
CancelStreamAction, version 1, well-formed payload), but that tag is not a
registered key of this registry — decode_for_display cannot accept the
triple — while the placeholder key CancelStreamActionDecoder is registered:
the decoder is registered under a placeholder type, not the action's tag. -/
theorem c6_counterexample_placeholder_registration :
    secureAcceptsCancelStream exSpecCancelStream = true ∧
      displayTagRegistered registryStreamV1 exSpecCancelStream.tag = false ∧
      displayTagRegistered registryStreamV1 MvType.cancelStreamDecT = true := by
  refine ⟨by rfl, by decide, by decide⟩

/-- C6 amended: registry/dispatch agreement is the intended standing
invariant, but the scripts show it violated and then restored:
fix_decoder_issues.py registers every stream decoder under a placeholder
Decoder type (so the registry rejects triples the dispatch core accepts),
and fix_all_issues.py#fix_p1_decoder_registrations re-registers each one
under the actual action type (CreateStreamAction keeping its CoinPlaceholder
type parameter) and removes every placeholder key, making the
dispatch-expected tags registered keys again. -/
theorem c6_amended_registrations_restored :
    ∀ k : StreamKind,
      displayTagRegistered registryStreamV2 (actualStreamType k) = true ∧
        displayTagRegistered registryStreamV2 (decoderStreamType k) = false ∧
        displayTagRegistered registryStreamV1 (actualStreamType k) = false := by
  intro k
  cases k <;> exact ⟨by decide, by decide, by decide⟩

/-- Witness for the amended C6 at the CancelStream kind. -/
theorem c6_amended_registrations_restored_witness :
    displayTagRegistered registryStreamV2 (actualStreamType .cancelStream) = true ∧
      displayTagRegistered registryStreamV2 (decoderStreamType .cancelStream) = false ∧
      displayTagRegistered registryStreamV1 (actualStreamType .cancelStream) = false :=
  c6_amended_registrations_restored .cancelStream

/-! ## The per-file rewrite of fix_action_security.py (C10)

An executable embedding of process_file and fix_do_function from
contracts/fix_action_security.py over `List Char`.  Python string primitives
(`in`, find, rfind, slicing, replace) are modelled directly; the two regular
expressions of fix_do_function and the do_-function pattern of process_file
are hand-compiled: every character class in them excludes the character that
follows it, so greedy matching is maximal munch, and the lazy groups of the
next_action pattern make the match the leftmost one with minimal components
(first '=' after "let action", first occurrence of the executable call after
it, first ");" after that).  Recursions carry an explicit fuel bound (always
at least the scanned length, and every step consumes at least one character)
so that the definitions stay structural and kernel-evaluable. -/

/-- Left brace character (kept out of string literals). -/
def lbraceC : Char := Char.ofNat 123

/-- Right brace character. -/
def rbraceC : Char := Char.ofNat 125

/-- Python `pat in s` substring test. -/
def containsSub (s pat : List Char) : Bool :=
  match s with
  | [] => pat.isPrefixOf []
  | c :: t => pat.isPrefixOf (c :: t) || containsSub t pat

/-- First index at or after `i` where `pat` starts in the remaining text. -/
def findSubAux (s pat : List Char) (i : Nat) : Option Nat :=
  match s with
  | [] => if pat.isPrefixOf [] then some i else none
  | c :: t => if pat.isPrefixOf (c :: t) then some i else findSubAux t pat (i + 1)

/-- First index at or after `start` where `pat` occurs in `s`. -/
def findSubFrom (s pat : List Char) (start : Nat) : Option Nat :=
  findSubAux (s.drop start) pat start

/-- Python s.find(pat, start): the index or -1. -/
def pyFind (s pat : List Char) (start : Nat) : Int :=
  match findSubFrom s pat start with
  | some i => Int.ofNat i
  | none => -1

/-- Helper for pyRFind: keep the last prefix position seen. -/
def pyRFindAux (s pat : List Char) (i : Nat) (best : Int) : Int :=
  match s with
  | [] => best
  | c :: t =>
    pyRFindAux t pat (i + 1) (if pat.isPrefixOf (c :: t) then Int.ofNat i else best)

/-- Python s.rfind(pat): the last occurrence or -1 (nonempty pat). -/
def pyRFind (s pat : List Char) : Int :=
  pyRFindAux s pat 0 (-1)

/-- Python str.replace: replace all non-overlapping occurrences left to
right; fuel is the text length (each step consumes at least one char). -/
def replaceAllFuel : Nat → List Char → List Char → List Char → List Char
  | 0, s, _, _ => s
  | fuel + 1, s, old, new =>
    match s with
    | [] => []
    | c :: t =>
      if old.isPrefixOf (c :: t) then
        new ++ replaceAllFuel fuel ((c :: t).drop old.length) old new
      else c :: replaceAllFuel fuel t old new

/-- Python str.replace (never called with an empty pattern). -/
def replaceAll (s old new : List Char) : List Char :=
  match old with
  | [] => s
  | _ :: _ => replaceAllFuel s.length s old new

/-- Python \w for the ASCII text involved. -/
def isWordChar (c : Char) : Bool :=
  c.isAlphanum || c = '_'

/-- Python \s. -/
def isSpaceChar (c : Char) : Bool :=
  c = ' ' || c = '\t' || c = '\n' || c = '\x0d' || c = '\x0c' || c = '\x0b'

/-- Match of the do_-function pattern
`public fun do_\w+<[^>]+>\s*\([^)]+\)[^{]*\{` at the head of `s`, returning
the match length.  Each quantified class excludes its follower, so maximal
munch is exact. -/
def matchDoFunLen (s : List Char) : Option Nat :=
  if ("public fun do_").data.isPrefixOf s then
    let r1 := s.drop 14
    let w := r1.takeWhile isWordChar
    if w.length = 0 then none
    else
      match r1.drop w.length with
      | '<' :: r3 =>
        let g := r3.takeWhile (fun c => !(c == '>'))
        if g.length = 0 then none
        else
          match r3.drop g.length with
          | '>' :: r4 =>
            let sp := r4.takeWhile isSpaceChar
            match r4.drop sp.length with
            | '(' :: r5 =>
              let ps := r5.takeWhile (fun c => !(c == ')'))
              if ps.length = 0 then none
              else
                match r5.drop ps.length with
                | ')' :: r6 =>
                  let nb := r6.takeWhile (fun c => !(c == lbraceC))
                  match r6.drop nb.length with
                  | c :: _ =>
                    if c = lbraceC then
                      some (14 + w.length + 1 + g.length + 1 + sp.length + 1 +
                        ps.length + 1 + nb.length + 1)
                    else none
                  | [] => none
                | _ => none
            | _ => none
          | _ => none
      | _ => none
  else none

/-- re.finditer start positions of the do_-function pattern (non-overlapping,
left to right; fuel: each step consumes at least one char since a match is at
least 20 chars long). -/
def scanDoFunStartsFuel : Nat → List Char → Nat → List Nat
  | 0, _, _ => []
  | fuel + 1, s, i =>
    match s with
    | [] => []
    | _ :: t =>
      match matchDoFunLen s with
      | some len => i :: scanDoFunStartsFuel fuel (s.drop len) (i + len)
      | none => scanDoFunStartsFuel fuel t (i + 1)

/-- All do_-function match start positions in `s`. -/
def scanDoFunStarts (s : List Char) : List Nat :=
  scanDoFunStartsFuel s.length s 0

/-- The brace-counting loop of fix_do_function (fix_action_security.py lines
18-30): starting at `i`, track brace depth (an Int, decremented even before
any opening brace), remember whether a brace was entered, and yield the index
one past the closing brace of depth zero. -/
def findFuncEndAux : List Char → Int → Bool → Nat → Option Nat
  | [], _, _, _ => none
  | c :: t, bc, inf, i =>
    if c = lbraceC then findFuncEndAux t (bc + 1) true (i + 1)
    else if c = rbraceC then
      if inf && decide (bc - 1 = 0) then some (i + 1)
      else findFuncEndAux t (bc - 1) inf (i + 1)
    else findFuncEndAux t bc inf (i + 1)

/-- The literal alternatives of `executable(?:::)?\.next_action` at index
`i`; returns the end index of the literal. -/
def execCallEndAt (s : List Char) (i : Nat) : Option Nat :=
  if ("executable.next_action").data.isPrefixOf (s.drop i) then some (i + 22)
  else if ("executable::.next_action").data.isPrefixOf (s.drop i) then some (i + 24)
  else none

/-- First executable-call literal at or after `start`: (start, end). -/
def findExecCallFromFuel : Nat → List Char → Nat → Option (Nat × Nat)
  | 0, _, _ => none
  | fuel + 1, s, i =>
    if s.length < i then none
    else
      match execCallEndAt s i with
      | some e => some (i, e)
      | none => findExecCallFromFuel fuel s (i + 1)

/-- First executable-call literal at or after `start`. -/
def findExecCallFrom (s : List Char) (start : Nat) : Option (Nat × Nat) :=
  findExecCallFromFuel (s.length + 1) s start

/-- Completion of the lazy pattern
`let action.*?=.*?executable(?:::)?\.next_action.*?\);` (DOTALL) from a
candidate start `p0` of "let action": the lazy groups take the first '='
at or after p0+10, the first executable-call literal after it, and the first
");" after that; the result is the match end. -/
def nextActionEndFromP0 (s : List Char) (p0 : Nat) : Option Nat :=
  match findSubFrom s ("=").data (p0 + 10) with
  | none => none
  | some p1 =>
    match findExecCallFrom s (p1 + 1) with
    | none => none
    | some (_, qe) =>
      match findSubFrom s (");").data qe with
      | none => none
      | some r => some (r + 2)

/-- re.search of the next_action pattern: the leftmost "let action" start
that completes, with its match end. -/
def searchNextActionFuel : Nat → List Char → Nat → Option (Nat × Nat)
  | 0, _, _ => none
  | fuel + 1, s, i =>
    match findSubFrom s ("let action").data i with
    | none => none
    | some p0 =>
      match nextActionEndFromP0 s p0 with
      | some e => some (p0, e)
      | none => searchNextActionFuel fuel s (p0 + 1)

/-- re.search of the next_action pattern over the function body. -/
def searchNextActionMatch (s : List Char) : Option (Nat × Nat) :=
  searchNextActionFuel (s.length + 1) s 0

/-- Completion of `let action:\s*&?(\w+)\s*=` from a candidate start `p` of
"let action:": maximal spaces, optional '&', a nonempty word group, maximal
spaces, then '='; yields the group. -/
def actionTypeAtP (line : List Char) (p : Nat) : Option (List Char) :=
  let after := line.drop (p + 11)
  let sp := after.takeWhile isSpaceChar
  let r1 := after.drop sp.length
  let r2 := match r1 with
    | c :: t => if c = '&' then t else r1
    | [] => r1
  let w := r2.takeWhile isWordChar
  if w.length = 0 then none
  else
    let r3 := r2.drop w.length
    let sp2 := r3.takeWhile isSpaceChar
    match r3.drop sp2.length with
    | '=' :: _ => some w
    | _ => none

/-- re.search of the action-type pattern: leftmost completing "let action:"
start. -/
def searchActionTypeFuel : Nat → List Char → Nat → Option (List Char)
  | 0, _, _ => none
  | fuel + 1, line, i =>
    match findSubFrom line ("let action:").data i with
    | none => none
    | some p =>
      match actionTypeAtP line p with
      | some w => some w
      | none => searchActionTypeFuel fuel line (p + 1)

/-- re.search of `let action:\s*&?(\w+)\s*=` over the matched line. -/
def searchActionTypeGroup (line : List Char) : Option (List Char) :=
  searchActionTypeFuel (line.length + 1) line 0

/-- Completion of the fallback pattern `next_action<[^,]+,\s*(\w+)` from a
candidate start `p` of "next_action<". -/
def genericTypeAtP (line : List Char) (p : Nat) : Option (List Char) :=
  let after := line.drop (p + 12)
  let g := after.takeWhile (fun c => !(c == ','))
  if g.length = 0 then none
  else
    match after.drop g.length with
    | ',' :: r2 =>
      let sp := r2.takeWhile isSpaceChar
      let w := (r2.drop sp.length).takeWhile isWordChar
      if w.length = 0 then none else some w
    | _ => none

/-- re.search of the fallback generic pattern. -/
def searchGenericTypeFuel : Nat → List Char → Nat → Option (List Char)
  | 0, _, _ => none
  | fuel + 1, line, i =>
    match findSubFrom line ("next_action<").data i with
    | none => none
    | some p =>
      match genericTypeAtP line p with
      | some w => some w
      | none => searchGenericTypeFuel fuel line (p + 1)

/-- re.search of `next_action<[^,]+,\s*(\w+)` over the matched line. -/
def searchGenericTypeGroup (line : List Char) : Option (List Char) :=
  searchGenericTypeFuel (line.length + 1) line 0

/-- The replacement text of fix_do_function (fix_action_security.py lines
59-72), with the extracted action type spliced in. -/
def buildReplacement (actionType : List Char) : List Char :=
  ("// Verify this is the current action\n    assert!(executable::is_current_action<Outcome, ").data
    ++ actionType
    ++ (">(executable), EWrongAction);\n\n    // Get BCS bytes from ActionSpec\n    let specs = executable::intent(executable).action_specs();\n    let spec = specs.borrow(executable::action_idx(executable));\n    let action_data = protocol_intents::action_spec_data(spec);\n\n    // Check version before deserialization\n    let spec_version = protocol_intents::action_spec_version(spec);\n    assert!(spec_version == 1, EUnsupportedActionVersion);\n\n    // Deserialize the action\n    let action: ").data
    ++ actionType
    ++ (" = bcs::from_bytes(*action_data);").data

/-- fix_do_function (fix_action_security.py lines 11-87): find the function
extent by brace counting, search the next_action pattern inside it, extract
the action type, replace the matched text by the secure pattern, append the
increment_action_idx call before the last closing brace when missing, and
splice the new function body back into the content. -/
def fix_do_function (content : List Char) (func_start : Nat) : Option (List Char) :=
  let func_end :=
    match findFuncEndAux (content.drop func_start) 0 false func_start with
    | some e => e
    | none => func_start
  let func_content := (content.drop func_start).take (func_end - func_start)
  match searchNextActionMatch func_content with
  | none => none
  | some (ms, me) =>
    let original_line := (func_content.drop ms).take (me - ms)
    let tmatch :=
      match searchActionTypeGroup original_line with
      | some w => some w
      | none => searchGenericTypeGroup original_line
    match tmatch with
    | none => none
    | some action_type =>
      let repl := buildReplacement action_type
      let nfc := replaceAll func_content original_line repl
      let nfc2 :=
        if containsSub nfc ("executable::increment_action_idx").data then nfc
        else
          let lb := pyRFind nfc [rbraceC]
          if lb > 0 then
            (nfc.take lb.toNat)
              ++ ("\n    // Increment action index\n    executable::increment_action_idx(executable);\n").data
              ++ (nfc.drop lb.toNat)
          else nfc
      some ((content.take func_start) ++ nfc2 ++ (content.drop func_end))

/-- The bcs-import insertion of process_file (lines 120-127). -/
def ensureBcsImport (content : List Char) : List Char :=
  if containsSub content ("use sui::bcs").data then content
  else
    let p := pyFind content ("use sui::").data 0
    if p ≥ 0 then
      let nu := pyFind content ("\nuse ").data (p.toNat + 1)
      if nu > 0 then
        (content.take nu.toNat) ++ ("    bcs::\x7bSelf, BCS\x7d,\n").data
          ++ (content.drop nu.toNat)
      else content
    else content

/-- The error-constant insertion of process_file (lines 130-139). -/
def ensureErrorConsts (content : List Char) : List Char :=
  if containsSub content ("const EWrongAction").data then content
  else
    let es := pyFind content ("// === Errors ===").data 0
    if es ≥ 0 then
      let ns := pyFind content ("// ===").data (es.toNat + 1)
      if ns > 0 then
        (content.take ns.toNat)
          ++ ("const EWrongAction: u64 = 9999;\nconst EUnsupportedActionVersion: u64 = 9998;\n\n").data
          ++ (content.drop ns.toNat)
      else content
    else content

/-- The protocol_intents-alias insertion of process_file (lines 142-151). -/
def ensureAlias (content : List Char) : List Char :=
  if containsSub content ("protocol_intents").data then content
  else
    let ue := pyRFind content ("use ").data
    if ue ≥ 0 then
      let nl := pyFind content ("\n").data ue.toNat
      if nl > 0 then
        (content.take (nl.toNat + 1))
          ++ ("\n// === Aliases ===\nuse account_protocol::intents as protocol_intents;\n\n").data
          ++ (content.drop (nl.toNat + 1))
      else content
    else content

/-- The per-match loop of process_file (lines 106-116).  The start positions
were computed on the content as it was when the loop was entered, while the
1000-character preview and fix_do_function read the current, already partly
rewritten content — exactly as the Python iterates a finditer snapshot while
rebinding `content`. -/
def fixLoop : List Nat → List Char → Bool → List Char × Bool
  | [], cur, m => (cur, m)
  | s :: ss, cur, m =>
    let preview := (cur.drop s).take 1000
    if containsSub preview ("next_action").data then
      match fix_do_function cur s with
      | some nc => fixLoop ss nc true
      | none => fixLoop ss cur m
    else fixLoop ss cur m

/-- process_file (fix_action_security.py lines 89-161) as a function from the
file content to (return value, file content after the call): return early
when no next_action pattern occurs; otherwise run the per-match loop over the
do_-function matches of the entry content, and only when some function was
rewritten run the three import/constant insertions and write the file. -/
def process_file (content : List Char) : Bool × List Char :=
  if !containsSub content ("executable.next_action").data &&
      !containsSub content ("executable::next_action").data then
    (false, content)
  else
    let starts := scanDoFunStarts content
    let res := fixLoop starts content false
    if res.2 then (true, ensureAlias (ensureErrorConsts (ensureBcsImport res.1)))
    else (false, content)

/-- A Move file a single run of process_file does not fully repair: one
do_-function with two dot-form next_action calls.  The first run rewrites
only the first call (the regex var must be named `action`, and replace only
substitutes the matched text); the import/constant insertions are inert
because the header already carries them. -/
def exC0str : String :=
  "module pkg::m;\n"
    ++ "use sui::bcs;\n"
    ++ "// === Errors ===\n"
    ++ "const EWrongAction: u64 = 1;\n"
    ++ "const EUnsupportedActionVersion: u64 = 2;\n"
    ++ "\n"
    ++ "public fun do_alpha<Outcome: store, IW: drop>(executable: &mut Executable<Outcome>, witness: IW) \x7b\n"
    ++ "    let action: &AlphaAction = executable.next_action(witness);\n"
    ++ "    let action2: &AlphaAction = executable.next_action(witness);\n"
    ++ "    process(action);\n"
    ++ "\x7d\n"

/-- The same file as a character list. -/
def exC0 : List Char := exC0str.data

set_option maxHeartbeats 4000000 in
/-- C10 counterexample: process_file is not idempotent.  On exC0 the first
run rewrites and saves (returns true), and the second run — whose
next_action regex now matches from the `let action_data` line the first run
itself inserted up to the remaining vulnerable call — rewrites and saves
again (returns true), producing a file different from the first run's
output; it does not return false. -/
theorem c10_counterexample_second_run_rewrites_again :
    (process_file exC0).1 = true ∧
      (process_file (process_file exC0).2).1 = true ∧
      (process_file (process_file exC0).2).2 ≠ (process_file exC0).2 := by
  refine ⟨by rfl, by rfl, by decide⟩

/-- C10 amended: the rewrite of fix_action_security.py#process_file is not
idempotent in general — when a dot-form next_action call survives the first
run (for example a do_-function with two such calls, of which only the
leftmost match is replaced), a second run matches again starting at the
`let action_data` line inserted by the first run, rewrites, saves and
returns True.  A run that performs no rewrite, however, does not write the
file and returns False, leaving the content unchanged. -/
theorem c10_amended_no_rewrite_no_write :
    ∀ content : List Char, (process_file content).1 = false →
      (process_file content).2 = content := by
  intro content h
  unfold process_file at h ⊢
  by_cases hc : (!containsSub content ("executable.next_action").data &&
      !containsSub content ("executable::next_action").data) = true
  · simp [hc]
  · simp only [Bool.not_eq_true] at hc
    simp only [hc, if_false] at h ⊢
    by_cases hr : (fixLoop (scanDoFunStarts content) content false).2 = true
    · simp [hr] at h
    · simp only [Bool.not_eq_true] at hr
      simp [hr]

/-- Witness for the amended C10: on a file with no next_action pattern at
all, process_file returns False and leaves the content unchanged. -/
theorem c10_amended_no_rewrite_no_write_witness :
    (process_file ("module pkg::m;\n").data).2 = ("module pkg::m;\n").data :=
  c10_amended_no_rewrite_no_write ("module pkg::m;\n").data (by rfl)

/-! ## The encoding-side constructor and fix_p2_revert_new_functions (C9)

The constructor text in src/ is the replacement string of
fix_financial_actions.py (lines 125-144).  fix_all_issues.py#
fix_p2_revert_new_functions later applies two re.sub calls to it: the
signature substitution (return type vector<u8> back to the struct type,
keeping the parameter group) and the serialize-tail substitution.  The tail
pattern's `[^...]`-class run cannot contain a closing brace, while the
destroy line fix_financial_actions writes is a struct destructuring that
does contain braces, so the tail substitution never fires: after the whole
script sequence only the signature annotation has changed and the body still
validates, builds the struct, serializes it, destroys it and returns the
bytes.  Both substitutions are embedded below and this is proved on the
exact texts. -/

/-- new_initiate_dissolution_action, as written by fix_financial_actions.py
lines 125-144: assert distribution_method <= 2 (EInvalidRatio), assert
reason nonempty (EInvalidRatio) — there is no check of
final_operations_deadline, unlike dispatch step 4 — then build the struct,
bcs::to_bytes it, destroy the struct and return only the bytes.  Because
fix_p2_revert_new_functions rewrites only the signature (proved below), this
body is also the constructor's body after the whole script sequence. -/
def new_initiate_dissolution_action (reason : List Nat) (dm : Nat) (burn : Bool)
    (dl : Nat) : Except DErr (List Nat) :=
  if ¬ dm ≤ 2 then .error .invalidRatioErr
  else if reason.length = 0 then .error .invalidRatioErr
  else .ok (encodeInitiate ⟨reason, dm, burn, dl⟩)

/-- Head match of the fix_p2 signature pattern
(fix_all_issues.py lines 387-388): the literal prefix
`public fun new_initiate_dissolution_action(`, a maximal nonempty run of
non-')' characters (the captured group; the class excludes ')' so greedy
matching is maximal munch and backtracking cannot help), then the literal
`): vector<u8>`.  Returns (match length, group). -/
def p2SigMatchHead (s : List Char) : Option (Nat × List Char) :=
  let lit1 := ("public fun new_initiate_dissolution_action(").data
  if lit1.isPrefixOf s then
    let r := s.drop lit1.length
    let g := r.takeWhile (fun c => !(c == ')'))
    if g.length = 0 then none
    else
      let lit2 := ("): vector<u8>").data
      if lit2.isPrefixOf (r.drop g.length) then
        some (lit1.length + g.length + lit2.length, g)
      else none
  else none

/-- re.sub of the signature pattern with its backreference replacement
`public fun new_initiate_dissolution_action(\1): InitiateDissolutionAction`,
scanning left to right over all occurrences. -/
def p2SigSubFuel : Nat → List Char → List Char
  | 0, s => s
  | fuel + 1, s =>
    match s with
    | [] => []
    | c :: t =>
      match p2SigMatchHead (c :: t) with
      | some (len, g) =>
        ("public fun new_initiate_dissolution_action(").data ++ g
          ++ ("): InitiateDissolutionAction").data
          ++ p2SigSubFuel fuel ((c :: t).drop len)
      | none => c :: p2SigSubFuel fuel t

/-- The fix_p2 signature substitution. -/
def p2SigSub (s : List Char) : List Char :=
  p2SigSubFuel s.length s

/-- Backtracking search for the brace-free run of the fix_p2 tail pattern:
the largest length k (at most the maximal brace-free run) at which the text
continues with the literal ` = action;` followed by the bytes line. -/
def p2TailKSearch : Nat → List Char → Option Nat
  | 0, _ => none
  | k + 1, r =>
    if (" = action;\n    bytes").data.isPrefixOf (r.drop (k + 1)) then some (k + 1)
    else p2TailKSearch k r

/-- Head match of the fix_p2 serialize-tail pattern (fix_all_issues.py lines
401-405): the three literal lines through `    let `, then a nonempty run of
characters other than a closing brace, then ` = action;` and the trailing
`    bytes` line.  The run is tried greedily from the maximal brace-free
extent downwards.  Returns the match length. -/
def p2TailMatchHead (s : List Char) : Option Nat :=
  let lit1 := ("    let bytes = bcs::to_bytes(&action);\n    // Destroy the action struct after serialization\n    let ").data
  if lit1.isPrefixOf s then
    let r := s.drop lit1.length
    let m := (r.takeWhile (fun c => !(c == rbraceC))).length
    match p2TailKSearch m r with
    | some k => some (lit1.length + k + (" = action;\n    bytes").data.length)
    | none => none
  else none

/-- re.sub of the serialize-tail pattern with replacement `    action`,
scanning left to right over all occurrences. -/
def p2TailSubFuel : Nat → List Char → List Char
  | 0, s => s
  | fuel + 1, s =>
    match s with
    | [] => []
    | c :: t =>
      match p2TailMatchHead (c :: t) with
      | some len => ("    action").data ++ p2TailSubFuel fuel ((c :: t).drop len)
      | none => c :: p2TailSubFuel fuel t

/-- The fix_p2 serialize-tail substitution. -/
def p2TailSub (s : List Char) : List Char :=
  p2TailSubFuel s.length s

/-- fix_p2_revert_new_functions restricted to the new_initiate constructor:
the signature substitution, then the serialize-tail substitution, in the
source's order. -/
def fixP2OnNewInitiate (s : List Char) : List Char :=
  p2TailSub (p2SigSub s)

/-- The new_initiate_dissolution_action function text written by
fix_financial_actions.py (its replacement string, lines 125-144). -/
def newInitiateV1Text : String :=
  "public fun new_initiate_dissolution_action(\n"
    ++ "    reason: String,\n"
    ++ "    distribution_method: u8,\n"
    ++ "    burn_unsold_tokens: bool,\n"
    ++ "    final_operations_deadline: u64,\n"
    ++ "): vector<u8> \x7b\n"
    ++ "    assert!(distribution_method <= 2, EInvalidRatio); // 0, 1, or 2\n"
    ++ "    assert!(reason.length() > 0, EInvalidRatio);\n"
    ++ "\n"
    ++ "    let action = InitiateDissolutionAction \x7b\n"
    ++ "        reason,\n"
    ++ "        distribution_method,\n"
    ++ "        burn_unsold_tokens,\n"
    ++ "        final_operations_deadline,\n"
    ++ "    \x7d;\n"
    ++ "    let bytes = bcs::to_bytes(&action);\n"
    ++ "    // Destroy the action struct after serialization\n"
    ++ "    let InitiateDissolutionAction \x7b reason: _, distribution_method: _, burn_unsold_tokens: _, final_operations_deadline: _ \x7d = action;\n"
    ++ "    bytes\n"
    ++ "\x7d"

/-- The same text as a character list. -/
def newInitiateV1TextData : List Char := newInitiateV1Text.data

/-- The constructor text after fix_p2_revert_new_functions: the signature's
return type is the struct type, every line of the body — including the
serialize-and-destroy tail — is unchanged. -/
def newInitiateAfterP2Text : String :=
  "public fun new_initiate_dissolution_action(\n"
    ++ "    reason: String,\n"
    ++ "    distribution_method: u8,\n"
    ++ "    burn_unsold_tokens: bool,\n"
    ++ "    final_operations_deadline: u64,\n"
    ++ "): InitiateDissolutionAction \x7b\n"
    ++ "    assert!(distribution_method <= 2, EInvalidRatio); // 0, 1, or 2\n"
    ++ "    assert!(reason.length() > 0, EInvalidRatio);\n"
    ++ "\n"
    ++ "    let action = InitiateDissolutionAction \x7b\n"
    ++ "        reason,\n"
    ++ "        distribution_method,\n"
    ++ "        burn_unsold_tokens,\n"
    ++ "        final_operations_deadline,\n"
    ++ "    \x7d;\n"
    ++ "    let bytes = bcs::to_bytes(&action);\n"
    ++ "    // Destroy the action struct after serialization\n"
    ++ "    let InitiateDissolutionAction \x7b reason: _, distribution_method: _, burn_unsold_tokens: _, final_operations_deadline: _ \x7d = action;\n"
    ++ "    bytes\n"
    ++ "\x7d"

/-- The same text as a character list. -/
def newInitiateAfterP2TextData : List Char := newInitiateAfterP2Text.data

/-- An InitiateDissolution spec whose payload carries deadline 0. -/
def exSpecInitiateZeroDl : ActionSpec :=
  ⟨.initiateDissolutionT, 1, encodeInitiate ⟨[104], 1, false, 0⟩⟩

/-- One-action executable over exSpecInitiateZeroDl. -/
def exExecInitiateZeroDl : Executable := ⟨⟨[exSpecInitiateZeroDl]⟩, 0⟩

/-- C9 counterexample: the constructor does not perform the same business
validation as dispatch step 4 — do_initiate_dissolution's deadline check
(assert final_operations_deadline > 0, EInvalidThreshold) has no counterpart
in new_initiate_dissolution_action.  With deadline 0 the constructor
succeeds and produces the serialized bytes, while dispatching that very
payload fails the step-4 validation with EInvalidThreshold. -/
theorem c9_counterexample_missing_deadline_validation :
    new_initiate_dissolution_action [104] 1 false 0 =
      .ok (encodeInitiate ⟨[104], 1, false, 0⟩) ∧
      (do_initiate_dissolution exStActive exExecInitiateZeroDl).2 =
        .error .invalidThresholdErr := by
  exact ⟨by rfl, by rfl⟩

set_option maxHeartbeats 4000000 in
/-- C9 amended: the encoding-side constructor validates up front and fails
fast before any bytes are produced — but only two of dispatch step 4's three
checks (distribution_method <= 2 and nonempty reason; the deadline-positive
check is missing) — then builds the payload struct, serializes it, destroys
it and returns only the bytes.  This serialize-and-destroy body survives the
whole script sequence: fix_all_issues.py#fix_p2_revert_new_functions rewrites
only the signature's return type, because its serialize-tail pattern's
brace-free run cannot cross the braces of the destructuring line, so the
tail substitution is the identity on the constructor text. -/
theorem c9_amended_constructor_validates_then_serializes :
    (∀ (reason : List Nat) (dm : Nat) (burn : Bool) (dl : Nat),
      ((¬ dm ≤ 2 ∨ reason.length = 0) →
        new_initiate_dissolution_action reason dm burn dl = .error .invalidRatioErr) ∧
      (dm ≤ 2 → reason.length ≠ 0 →
        new_initiate_dissolution_action reason dm burn dl =
          .ok (encodeInitiate ⟨reason, dm, burn, dl⟩)))
    ∧ fixP2OnNewInitiate newInitiateV1TextData = newInitiateAfterP2TextData
    ∧ p2TailSub (p2SigSub newInitiateV1TextData) = p2SigSub newInitiateV1TextData
    ∧ containsSub newInitiateAfterP2TextData
        ("    let bytes = bcs::to_bytes(&action);").data = true
    ∧ containsSub newInitiateAfterP2TextData ("): InitiateDissolutionAction").data = true
    ∧ containsSub newInitiateAfterP2TextData ("): vector<u8>").data = false := by
  refine ⟨?_, by rfl, by rfl, by rfl, by rfl, by rfl⟩
  intro reason dm burn dl
  constructor
  · intro h
    unfold new_initiate_dissolution_action
    rcases h with h | h
    · simp [h]
    · by_cases hd : dm ≤ 2 <;> simp [h, hd]
  · intro h1 h2
    unfold new_initiate_dissolution_action
    simp [h1, h2]

/-- Witness for the amended C9: the constructor fails fast on an empty
reason and, on valid parameters, returns exactly the serialized bytes. -/
theorem c9_amended_constructor_validates_then_serializes_witness :
    new_initiate_dissolution_action [] 1 false 5 = .error .invalidRatioErr ∧
      new_initiate_dissolution_action [104] 1 false 5 =
        .ok (encodeInitiate ⟨[104], 1, false, 5⟩) :=
  ⟨((c9_amended_constructor_validates_then_serializes.1 [] 1 false 5).1 (Or.inr rfl)),
    ((c9_amended_constructor_validates_then_serializes.1 [104] 1 false 5).2
      (by decide) (by decide))⟩
